import Mathlib

/-!
Shallow embedding of the stock financial dashboard script (`app.py`) and
proofs about the claims of its specification.

Conventions of the embedding:
* Python floats are modelled as rationals (`ℚ`); every IEEE double is an
  exact rational, and Python's `:.2f` rounding is round-half-even on that
  exact value, modelled by `roundHalfEven`.
* Python `None`, `float('nan')`, numbers and strings living in the
  heterogeneous metadata mapping are modelled by the inductive `PyVal`.
* An operation that can raise a Python exception (`TypeError` from applying
  a numeric format spec to `None` or to a string, `ZeroDivisionError`)
  returns an `Option`, with `none` marking the raised exception.
-/

section Dashboard

/- Batteries marks the rational operations irreducible; re-allow unfolding
locally so that concrete table entries evaluate inside `decide`. -/
attribute [local semireducible] Rat.mul Rat.inv Rat.add Rat.sub Rat.ofScientific

/-! ### Decimal digit rendering -/

/-- Render the decimal digits of a natural number, most significant first.
The first argument is fuel (strictly larger than the number of digits), so
the recursion is structural and kernel-reducible. -/
def digitsGo : Nat → Nat → List Char → List Char
  | 0, _, acc => acc
  | fuel + 1, n, acc =>
    if n < 10 then Nat.digitChar n :: acc
    else digitsGo fuel (n / 10) (Nat.digitChar (n % 10) :: acc)

/-- Decimal digits of `n`, e.g. `natDigits 1024 = ['1','0','2','4']`. -/
def natDigits (n : Nat) : List Char := digitsGo (n + 1) n []

/-- Left-pad a character list with zeros up to width `w`. -/
def padZeros (w : Nat) (l : List Char) : List Char :=
  List.replicate (w - l.length) '0' ++ l

/-- Round a rational to the nearest integer, ties to even: the rounding
mode used by Python `format` and by numpy/pandas rounding. -/
def roundHalfEven (q : ℚ) : ℤ :=
  let f : ℤ := q.num.fdiv q.den
  let r : ℚ := q - (f : ℚ)
  if r < 1 / 2 then f
  else if 1 / 2 < r then f + 1
  else if f % 2 = 0 then f else f + 1

/-- Two-digit zero-padded rendering of `m < 100`. -/
def pad2 (m : Nat) : List Char :=
  if m < 10 then '0' :: natDigits m else natDigits m

/-- Model of Python `f"{q:.2f}"`: round-half-even at two decimals, sign
taken from the value (so `-0.001` renders `-0.00`, as in Python). -/
def fmt2 (q : ℚ) : String :=
  let n := roundHalfEven (100 * q)
  ⟨(if q < 0 then ['-'] else []) ++
    natDigits (n.natAbs / 100) ++ '.' :: pad2 (n.natAbs % 100)⟩

/-- Model of Python `f"{q:+.2f}"` (explicit sign). -/
def fmtPlus2 (q : ℚ) : String :=
  let n := roundHalfEven (100 * q)
  ⟨(if q < 0 then ['-'] else ['+']) ++
    natDigits (n.natAbs / 100) ++ '.' :: pad2 (n.natAbs % 100)⟩

/-- Insert a `','` after every group of three characters of a reversed
digit list; building block of the thousands-separator format. -/
def commaRev : List Char → List Char
  | a :: b :: c :: rest =>
    match rest with
    | [] => [a, b, c]
    | _ :: _ => a :: b :: c :: ',' :: commaRev rest
  | l => l

/-- Thousands-separated rendering of a natural number,
e.g. `commaNat 1234567 = "1,234,567"`. -/
def commaNat (n : Nat) : String :=
  ⟨(commaRev (natDigits n).reverse).reverse⟩

/-- Model of Python `f"{q:,.0f}"`: round-half-even to an integer, render
with thousands separators. -/
def commaFmt (q : ℚ) : String :=
  (if q < 0 then "-" else "") ++ commaNat (roundHalfEven q).natAbs

/-! ### Python values and the metadata mapping -/

/-- A value stored in the company-metadata mapping (`ticker.info`): Python
`None`, a float `nan`, a number, or a string. -/
inductive PyVal where
  | none : PyVal
  | nan : PyVal
  | num (q : ℚ) : PyVal
  | str (s : String) : PyVal
  deriving DecidableEq

/-- The metadata mapping: association list from field names to values. -/
abbrev Info : Type := List (String × PyVal)

/-- First binding of `key`, if any (Python `key in info` / `info[key]`). -/
def lookupInfo : Info → String → Option PyVal
  | [], _ => Option.none
  | (k, v) :: rest, key => if k = key then some v else lookupInfo rest key

/-- Python `info.get(key, default)`: the bound value when the key is
present (even when that value is `None`), otherwise the default. -/
def getD (info : Info) (key : String) (d : PyVal) : PyVal :=
  (lookupInfo info key).getD d

/-- Python `info.get(key)` (default `None`). -/
def getOpt (info : Info) (key : String) : PyVal :=
  getD info key PyVal.none

/-- Python truthiness: `None` and `0` and `""` are falsy; `nan` is truthy. -/
def truthy : PyVal → Bool
  | .none => false
  | .nan => true
  | .num q => if q = 0 then false else true
  | .str s => if s = "" then false else true

/-- Is the value a number? -/
def isNum : PyVal → Bool
  | .num _ => true
  | _ => false

/-- Every bound value of the mapping is a number. -/
def infoNumeric (info : Info) : Bool :=
  (info.all fun p => isNum p.2)

/-- Python `f"{v:.2f}"` applied to an arbitrary value: numbers format,
`nan` prints `nan`, while `None` and strings raise (`Option.none`). -/
def applyFmt2 : PyVal → Option String
  | .num q => some (fmt2 q)
  | .nan => some "nan"
  | _ => Option.none

/-- Python `f"${v:.2f}"`. -/
def fmtDollar2 (v : PyVal) : Option String :=
  (applyFmt2 v).map (fun s => "$" ++ s)

/-- Python `f"{v*100:.2f}%"`. -/
def applyFmtPct : PyVal → Option String
  | .num q => some (fmt2 (q * 100) ++ "%")
  | .nan => some "nan%"
  | _ => Option.none

/-- Python `f"{v:,.0f}"`. -/
def applyFmtComma : PyVal → Option String
  | .num q => some (commaFmt q)
  | .nan => some "nan"
  | _ => Option.none

/-- Python `f"{v:+.2f}"`. -/
def applyFmtPlus2 : PyVal → Option String
  | .num q => some (fmtPlus2 q)
  | .nan => some "+nan"
  | _ => Option.none

/-! ### The magnitude formatter (`format_large_number`, app.py lines 46-59) -/

/-- `format_large_number` from the source: `None`/`nan` map to `"N/A"`,
numbers are scaled by the first matching power-of-ten threshold (absolute
value comparison) and suffixed; a string input would raise `TypeError` at
`abs(num)`, modelled by `Option.none`.  `1e12` etc. are exact doubles,
modelled by `10 ^ 12`. -/
def format_large_number : PyVal → Option String
  | .none => some "N/A"
  | .nan => some "N/A"
  | .str _ => Option.none
  | .num q =>
    some (if 10 ^ 12 ≤ |q| then "$" ++ fmt2 (q / 10 ^ 12) ++ "T"
      else if 10 ^ 9 ≤ |q| then "$" ++ fmt2 (q / 10 ^ 9) ++ "B"
      else if 10 ^ 6 ≤ |q| then "$" ++ fmt2 (q / 10 ^ 6) ++ "M"
      else if 10 ^ 3 ≤ |q| then "$" ++ fmt2 (q / 10 ^ 3) ++ "K"
      else "$" ++ fmt2 q)

/-- Modelled from the spec: the magnitude formatter described by disjoint
threshold ranges — suffix `T` when `|x| ≥ 1e12`, `B` when `1e9 ≤ |x| < 1e12`,
`M` when `1e6 ≤ |x| < 1e9`, `K` when `1e3 ≤ |x| < 1e6`, no suffix when
`|x| < 1e3`, two decimals, sign preserved. -/
def formatSpec (q : ℚ) : String :=
  if 10 ^ 12 ≤ |q| then "$" ++ fmt2 (q / 10 ^ 12) ++ "T"
  else if 10 ^ 9 ≤ |q| ∧ |q| < 10 ^ 12 then "$" ++ fmt2 (q / 10 ^ 9) ++ "B"
  else if 10 ^ 6 ≤ |q| ∧ |q| < 10 ^ 9 then "$" ++ fmt2 (q / 10 ^ 6) ++ "M"
  else if 10 ^ 3 ≤ |q| ∧ |q| < 10 ^ 6 then "$" ++ fmt2 (q / 10 ^ 3) ++ "K"
  else "$" ++ fmt2 q

/-! ### The financial metrics table (app.py lines 214-265)

Each `Value` entry of the table is one Python conditional expression; the
source repeats six formatting patterns, modelled by the six helpers below.
An entry evaluates to `Option.none` exactly when the Python expression
would raise (formatting `None` or a string with a numeric format spec). -/

/-- Pattern `f"${info.get(k1, info.get(k2, 'N/A')):.2f}" if info.get(k1)
or info.get(k2) else "N/A"`. -/
def valuePairDollar (info : Info) (k1 k2 : String) : Option String :=
  if truthy (getOpt info k1) || truthy (getOpt info k2) then
    fmtDollar2 (getD info k1 (getD info k2 (.str "N/A")))
  else some "N/A"

/-- Pattern `f"${info.get(k, 'N/A'):.2f}" if info.get(k) else "N/A"`. -/
def valueSingleDollar (info : Info) (k : String) : Option String :=
  if truthy (getOpt info k) then fmtDollar2 (getD info k (.str "N/A"))
  else some "N/A"

/-- Pattern `f"{info.get(k, 'N/A'):.2f}" if info.get(k) else "N/A"`. -/
def valueSinglePlain (info : Info) (k : String) : Option String :=
  if truthy (getOpt info k) then applyFmt2 (getD info k (.str "N/A"))
  else some "N/A"

/-- Pattern `f"{info.get(k, 0)*100:.2f}%" if info.get(k) else "N/A"`. -/
def valuePct0 (info : Info) (k : String) : Option String :=
  if truthy (getOpt info k) then applyFmtPct (getD info k (.num 0))
  else some "N/A"

/-- Pattern `f"{info.get(k1, info.get(k2, 'N/A')):,.0f}" if info.get(k1)
or info.get(k2) else "N/A"`. -/
def valuePairComma (info : Info) (k1 k2 : String) : Option String :=
  if truthy (getOpt info k1) || truthy (getOpt info k2) then
    applyFmtComma (getD info k1 (getD info k2 (.str "N/A")))
  else some "N/A"

/-- Pattern `f"{info.get(k, 'N/A'):,.0f}" if info.get(k) else "N/A"`. -/
def valueSingleComma (info : Info) (k : String) : Option String :=
  if truthy (getOpt info k) then applyFmtComma (getD info k (.str "N/A"))
  else some "N/A"

/-- The `i`-th entry of the `Value` column of the financial metrics table
(0-based; the table has rows 0-22). -/
def valueRowN (info : Info) : Nat → Option String
  | 0 => valuePairDollar info "currentPrice" "regularMarketPrice"
  | 1 => valueSingleDollar info "previousClose"
  | 2 => valuePairDollar info "open" "regularMarketOpen"
  | 3 => valuePairDollar info "dayHigh" "regularMarketDayHigh"
  | 4 => valuePairDollar info "dayLow" "regularMarketDayLow"
  | 5 => valueSingleDollar info "fiftyTwoWeekHigh"
  | 6 => valueSingleDollar info "fiftyTwoWeekLow"
  | 7 => format_large_number (getOpt info "marketCap")
  | 8 => valueSinglePlain info "trailingPE"
  | 9 => valueSinglePlain info "forwardPE"
  | 10 => valueSinglePlain info "pegRatio"
  | 11 => valueSinglePlain info "priceToBook"
  | 12 => valueSingleDollar info "trailingEps"
  | 13 => valuePct0 info "dividendYield"
  | 14 => valueSingleDollar info "dividendRate"
  | 15 => valueSinglePlain info "beta"
  | 16 => valuePairComma info "volume" "regularMarketVolume"
  | 17 => valueSingleComma info "averageVolume"
  | 18 => format_large_number (getOpt info "totalRevenue")
  | 19 => valuePct0 info "profitMargins"
  | 20 => valuePct0 info "operatingMargins"
  | 21 => valuePct0 info "returnOnEquity"
  | 22 => valuePct0 info "returnOnAssets"
  | _ => Option.none

/-- The metadata keys the `i`-th table row reads. -/
def rowKeysN : Nat → List String
  | 0 => ["currentPrice", "regularMarketPrice"]
  | 1 => ["previousClose"]
  | 2 => ["open", "regularMarketOpen"]
  | 3 => ["dayHigh", "regularMarketDayHigh"]
  | 4 => ["dayLow", "regularMarketDayLow"]
  | 5 => ["fiftyTwoWeekHigh"]
  | 6 => ["fiftyTwoWeekLow"]
  | 7 => ["marketCap"]
  | 8 => ["trailingPE"]
  | 9 => ["forwardPE"]
  | 10 => ["pegRatio"]
  | 11 => ["priceToBook"]
  | 12 => ["trailingEps"]
  | 13 => ["dividendYield"]
  | 14 => ["dividendRate"]
  | 15 => ["beta"]
  | 16 => ["volume", "regularMarketVolume"]
  | 17 => ["averageVolume"]
  | 18 => ["totalRevenue"]
  | 19 => ["profitMargins"]
  | 20 => ["operatingMargins"]
  | 21 => ["returnOnEquity"]
  | 22 => ["returnOnAssets"]
  | _ => []

/-- Collect a list of possibly-raising computations; `Option.none` if any
entry raised (building the Python list evaluates every entry). -/
def seqOpt {α : Type} : List (Option α) → Option (List α)
  | [] => some []
  | Option.none :: _ => Option.none
  | some a :: rest => (seqOpt rest).map (fun l => a :: l)

/-- Building the whole `Value` column of the 23-row metrics table. -/
def buildValues (info : Info) : Option (List String) :=
  seqOpt ((List.range 23).map (valueRowN info))

/-! ### Metric tiles (app.py lines 95-125) -/

/-- `st.metric("Market Cap", format_large_number(info.get('marketCap')))`. -/
def marketCapTile (info : Info) : Option String :=
  format_large_number (getOpt info "marketCap")

/-- `f"{pe_ratio:.2f}" if pe_ratio else "N/A"` with
`pe_ratio = info.get('trailingPE')`. -/
def peTile (info : Info) : Option String :=
  if truthy (getOpt info "trailingPE") then applyFmt2 (getOpt info "trailingPE")
  else some "N/A"

/-- `f"{dividend_yield*100:.2f}%" if dividend_yield else "N/A"` with
`dividend_yield = info.get('dividendYield')`. -/
def divYieldTile (info : Info) : Option String :=
  if truthy (getOpt info "dividendYield") then applyFmtPct (getOpt info "dividendYield")
  else some "N/A"

/-- `f"{volume:,.0f}" if volume else "N/A"` with
`volume = info.get('volume') or info.get('regularMarketVolume')`. -/
def volumeTile (info : Info) : Option String :=
  let volume := if truthy (getOpt info "volume") then getOpt info "volume"
    else getOpt info "regularMarketVolume"
  if truthy volume then applyFmtComma volume else some "N/A"

/-! ### Price change (app.py lines 97-108) -/

/-- Python `a or b`: the first operand when truthy, otherwise the second. -/
def pyOr (a b : PyVal) : PyVal := if truthy a then a else b

/-- `current_price = info.get('currentPrice') or
info.get('regularMarketPrice', 0)`. -/
def current_price (info : Info) : PyVal :=
  pyOr (getOpt info "currentPrice") (getD info "regularMarketPrice" (.num 0))

/-- `previous_close = info.get('previousClose', 0)`. -/
def previous_close (info : Info) : PyVal :=
  getD info "previousClose" (.num 0)

/-- Python subtraction over metadata values; `Option.none` is a raised
`TypeError` (an operand is `None` or a string). -/
def pySub : PyVal → PyVal → Option PyVal
  | .num a, .num b => some (.num (a - b))
  | .num _, .nan => some .nan
  | .nan, .num _ => some .nan
  | .nan, .nan => some .nan
  | _, _ => Option.none

/-- Python `a / b * 100`; `Option.none` is a raised `TypeError` or
`ZeroDivisionError`. -/
def pyDivMul100 : PyVal → PyVal → Option PyVal
  | .num a, .num b => if b = 0 then Option.none else some (.num (a / b * 100))
  | .num _, .nan => some .nan
  | .nan, .num b => if b = 0 then Option.none else some .nan
  | .nan, .nan => some .nan
  | _, _ => Option.none

/-- `price_change = current_price - previous_close if current_price and
previous_close else 0`. -/
def price_change (info : Info) : Option PyVal :=
  if truthy (current_price info) && truthy (previous_close info) then
    pySub (current_price info) (previous_close info)
  else some (.num 0)

/-- `price_change_pct = (price_change / previous_close * 100) if
previous_close else 0`. -/
def price_change_pct (info : Info) : Option PyVal :=
  if truthy (previous_close info) then
    (price_change info).bind (fun pc => pyDivMul100 pc (previous_close info))
  else some (.num 0)

/-- The delta argument of the Current Price tile:
`f"{price_change:+.2f} ({price_change_pct:+.2f}%)" if price_change else
None`.  Outer `Option.none` is a raised exception; inner `Option` is
Python `None` (no delta displayed). -/
def deltaDisplay (info : Info) : Option (Option String) :=
  (price_change info).bind fun pc =>
    if truthy pc then
      (applyFmtPlus2 pc).bind fun s1 =>
        (price_change_pct info).bind fun pct =>
          (applyFmtPlus2 pct).map fun s2 =>
            some (s1 ++ " (" ++ s2 ++ "%)")
    else some Option.none

/-! ### Price history -/

/-- A calendar date `(year, month, day)`, the index of the history frame. -/
abbrev Date : Type := Nat × Nat × Nat

/-- `strftime('%Y-%m-%d')`. -/
def fmtDate (d : Date) : String :=
  ⟨padZeros 4 (natDigits d.1) ++ '-' ::
    (padZeros 2 (natDigits d.2.1) ++ '-' :: padZeros 2 (natDigits d.2.2))⟩

/-- One daily bar of the fetched price history. -/
structure Bar where
  date : Date
  «open» : ℚ
  high : ℚ
  low : ℚ
  close : ℚ
  volume : Nat
  deriving DecidableEq

instance : Inhabited Bar := ⟨⟨(0, 0, 0), 0, 0, 0, 0, 0⟩⟩

/-- The close column of the history. -/
def closes (bars : List Bar) : List ℚ := bars.map (fun b => b.close)

/-- `hist['Close'].rolling(window=w).mean()` with pandas defaults
(`min_periods = w`): entry `i` is empty (`NaN`) until a full window is
available, then the arithmetic mean of the last `w` closes. -/
def rollingMean (w : Nat) (xs : List ℚ) : List (Option ℚ) :=
  (List.range xs.length).map fun i =>
    if i + 1 < w then Option.none
    else some ((((xs.drop (i + 1 - w)).take w).sum) / (w : ℚ))

/-- `colors = ['red' if hist['Close'].iloc[i] < hist['Open'].iloc[i] else
'green' for i in range(len(hist))]` (app.py lines 182-183). -/
def barColors (bars : List Bar) : List String :=
  bars.map (fun b => if b.close < b.«open» then "red" else "green")

/-- A trace of the two-panel chart specification. -/
inductive Trace where
  | candlestick («open» high low close : List ℚ) : Trace
  | maLine (name : String) (ys : List (Option ℚ)) : Trace
  | volumeBars (ys : List Nat) (colors : List String) : Trace
  deriving DecidableEq

/-- The chart construction (app.py lines 133-193): candlestick, then the
20-day moving average if `len(hist) >= 20`, then the 50-day moving average
if `len(hist) >= 50`, then the colored volume bars. -/
def buildChart (bars : List Bar) : List Trace :=
  [Trace.candlestick (bars.map (fun b => b.«open»)) (bars.map (fun b => b.high))
    (bars.map (fun b => b.low)) (closes bars)]
  ++ (if 20 ≤ bars.length then
        [Trace.maLine "20-Day MA" (rollingMean 20 (closes bars))] else [])
  ++ (if 50 ≤ bars.length then
        [Trace.maLine "50-Day MA" (rollingMean 50 (closes bars))] else [])
  ++ [Trace.volumeBars (bars.map (fun b => b.volume)) (barColors bars)]

/-- Is a trace one of the moving-average overlays? -/
def isMALine : Trace → Bool
  | .maLine _ _ => true
  | _ => false

/-! ### Session state and the fetch handler (app.py lines 38-44, 61-82) -/

/-- The three `st.session_state` slots, each initialised to `None`. -/
structure SessionState where
  stock_data : Option (List Bar)
  stock_info : Option Info
  symbol : Option String
  deriving DecidableEq

/-- The initial session state (nothing fetched yet). -/
def initState : SessionState := ⟨Option.none, Option.none, Option.none⟩

/-- Behaviour of the provider call inside `get_stock_data`: either the
call raises with message `e`, or it returns a history and a metadata
mapping. -/
inductive FetchOutcome where
  | raises (e : String) : FetchOutcome
  | returns (hist : List Bar) (info : Info) : FetchOutcome

/-- `get_stock_data` (app.py lines 61-69): `try` returns
`(hist, info, None)`; `except` returns `(None, None, str(e))`. -/
def get_stock_data : FetchOutcome → Option (List Bar) × Option Info × Option String
  | .raises e => (Option.none, Option.none, some e)
  | .returns hist info => (some hist, some info, Option.none)

/-- Python truthiness of the `error` slot (`None` or a string). -/
def strTruthy : Option String → Bool
  | Option.none => false
  | some s => if s = "" then false else true

/-- Text of `st.error(f"Error fetching data: {error}")`. -/
def errMsg (e : String) : String := "Error fetching data: " ++ e

/-- Text of `st.error(f"No data found for symbol '{symbol}'. ...")`. -/
def noDataMsg (sym : String) : String :=
  "No data found for symbol '" ++ sym ++ "'. Please check the symbol and try again."

/-- The fetch handler (app.py lines 72-82): branch on `if error:`, then on
`hist is None or hist.empty`, else store all three session slots.  Returns
the new session state and the displayed error message, if any. -/
def fetchHandler (s : SessionState) (sym : String) (o : FetchOutcome) :
    SessionState × Option String :=
  let r := get_stock_data o
  let hist := r.1
  let info := r.2.1
  let error := r.2.2
  if strTruthy error then (s, some (errMsg (error.getD "")))
  else if hist.isNone || (hist.getD []).isEmpty then (s, some (noDataMsg sym))
  else (⟨hist, info, some sym⟩, Option.none)

/-- One fetch attempt as a state transition. -/
def fetchStep (s : SessionState) (ev : String × FetchOutcome) : SessionState :=
  (fetchHandler s ev.1 ev.2).1

/-- The SessionState invariant of the spec: fully absent, or fully
populated with a non-empty history. -/
def Consistent (s : SessionState) : Prop :=
  s = initState ∨
  ∃ hist info sym, hist ≠ [] ∧ s = ⟨some hist, some info, some sym⟩

/-! ### The history as a column frame (for the in-place MA mutation) -/

/-- A cell of the history frame: a price, a possibly-missing moving-average
value, a volume, or a date. -/
inductive Cell where
  | qv (x : ℚ) : Cell
  | ov (x : Option ℚ) : Cell
  | nv (v : Nat) : Cell
  | dv (d : Date) : Cell
  deriving DecidableEq

/-- Named columns, in order; the session-state `hist` DataFrame. -/
abbrev Frame : Type := List (String × List Cell)

/-- The frame as fetched: index plus the five provider columns. -/
def histFrame (bars : List Bar) : Frame :=
  [("Date", bars.map (fun b => Cell.dv b.date)),
   ("Open", bars.map (fun b => Cell.qv b.«open»)),
   ("High", bars.map (fun b => Cell.qv b.high)),
   ("Low", bars.map (fun b => Cell.qv b.low)),
   ("Close", bars.map (fun b => Cell.qv b.close)),
   ("Volume", bars.map (fun b => Cell.nv b.volume))]

/-- Column lookup, `fr[name]`. -/
def lookupCol (fr : Frame) (name : String) : Option (List Cell) :=
  match fr with
  | [] => Option.none
  | (k, col) :: rest => if k = name then some col else lookupCol rest name

/-- `fr[name] = col`: replace the column when present, else append it. -/
def setCol (fr : Frame) (name : String) (col : List Cell) : Frame :=
  if name ∈ fr.map Prod.fst then
    fr.map (fun p => if p.1 = name then (name, col) else p)
  else fr ++ [(name, col)]

/-- Number of rows, `len(hist)`. -/
def nrows (fr : Frame) : Nat :=
  ((fr.head?).map (fun p => p.2.length)).getD 0

/-- The close column of a frame as rationals. -/
def colCloses (fr : Frame) : List ℚ :=
  ((lookupCol fr "Close").getD []).filterMap fun c =>
    match c with
    | .qv x => some x
    | _ => Option.none

/-- The in-place effect of the chart section on the session `hist`
(app.py lines 155-179): `hist['MA20'] = ...` when `len(hist) >= 20`, then
`hist['MA50'] = ...` when `len(hist) >= 50`. -/
def addMovingAverages (fr : Frame) : Frame :=
  let fr1 := if 20 ≤ nrows fr then
    setCol fr "MA20" ((rollingMean 20 (colCloses fr)).map Cell.ov) else fr
  if 50 ≤ nrows fr1 then
    setCol fr1 "MA50" ((rollingMean 50 (colCloses fr1)).map Cell.ov) else fr1

/-- `display_cols = ['Date', 'Open', 'High', 'Low', 'Close', 'Volume']`. -/
def displayCols : List String := ["Date", "Open", "High", "Low", "Close", "Volume"]

/-- `frame[cols]`: column selection, keeping the requested order. -/
def selectCols (cols : List String) (fr : Frame) : Frame :=
  cols.filterMap fun c => (lookupCol fr c).map (fun col => (c, col))

/-! ### Display table and CSV export (app.py lines 276-306) -/

/-- `pandas .round(2)` on a price column entry (round-half-even). -/
def round2 (q : ℚ) : ℚ := (roundHalfEven (100 * q) : ℚ) / 100

/-- A row of the on-screen historical table: formatted date, prices
rounded to two decimals, volume with thousands separators. -/
structure DisplayRow where
  date : String
  «open» : ℚ
  high : ℚ
  low : ℚ
  close : ℚ
  volume : String
  deriving DecidableEq

/-- A row of the exported historical CSV: formatted date, raw prices,
raw volume. -/
structure CsvRow where
  date : String
  «open» : ℚ
  high : ℚ
  low : ℚ
  close : ℚ
  volume : Nat
  deriving DecidableEq

/-- `display_hist` (app.py lines 276-291): copy, reset the index to a
`Date` column, format the dates, keep the six display columns, round the
prices, format the volumes, and reverse to reverse-chronological order. -/
def displayHist (bars : List Bar) : List DisplayRow :=
  (bars.map fun b =>
    ⟨fmtDate b.date, round2 b.«open», round2 b.high, round2 b.low,
      round2 b.close, commaNat b.volume⟩).reverse

/-- `csv_hist` (app.py lines 302-305): copy, reset the index, format the
dates, keep the six columns — no rounding, no volume formatting and no
reversal. -/
def csvHist (bars : List Bar) : List CsvRow :=
  bars.map fun b =>
    ⟨fmtDate b.date, b.«open», b.high, b.low, b.close, b.volume⟩

/-! ### The delimited text format

`DataFrame.to_csv(index=False)` writes a header line and one record per
row, cells separated by `','` and each line terminated by `'\n'`.  A float
cell is written as a plain decimal numeral; we render a rational exactly
when its denominator divides a power of ten (every IEEE double does), and
fall back to a fraction rendering otherwise. -/

/-- Multiplicity of `p` in `n` (first argument is fuel `≥ n`). -/
def multAux (p : Nat) : Nat → Nat → Nat
  | 0, _ => 0
  | fuel + 1, n =>
    if 2 ≤ p ∧ n ≠ 0 ∧ n % p = 0 then multAux p fuel (n / p) + 1 else 0

/-- Multiplicity of `p` in `n`. -/
def multOf (p n : Nat) : Nat := multAux p n n

/-- Digits of `m` with a decimal point inserted `k` places from the right
(no point when `k = 0`). -/
def decimalOf (m k : Nat) : List Char :=
  if k = 0 then natDigits m
  else
    let ds := padZeros (k + 1) (natDigits m)
    (ds.take (ds.length - k)) ++ '.' :: (ds.drop (ds.length - k))

/-- Exact decimal rendering of a rational whose denominator divides a
power of ten, fraction rendering otherwise. -/
def ratToDec (q : ℚ) : List Char :=
  let sign := if q < 0 then ['-'] else []
  let n := q.num.natAbs
  let d := q.den
  let k := max (multOf 2 d) (multOf 5 d)
  if d ∣ 10 ^ k then sign ++ decimalOf (n * 10 ^ k / d) k
  else sign ++ natDigits n ++ '/' :: natDigits d

/-- The cells of one CSV record. -/
def csvCells (r : CsvRow) : List (List Char) :=
  [r.date.data, ratToDec r.«open», ratToDec r.high, ratToDec r.low,
    ratToDec r.close, natDigits r.volume]

/-- The header record of the historical CSV. -/
def headerCells : List (List Char) :=
  ["Date", "Open", "High", "Low", "Close", "Volume"].map String.data

/-- Join cells with a separator character. -/
def joinWith (sep : Char) : List (List Char) → List Char
  | [] => []
  | [x] => x
  | x :: y :: rest => x ++ sep :: joinWith sep (y :: rest)

/-- Serialize records: comma-separated cells, newline after every line. -/
def toCsvDoc (rows : List (List (List Char))) : List Char :=
  (rows.map fun r => joinWith ',' r ++ ['\n']).flatten

/-- `hist.to_csv(index=False)` for the historical table, as characters. -/
def csv_data (bars : List Bar) : List Char :=
  toCsvDoc (headerCells :: (csvHist bars).map csvCells)

/-- Split a character list on a separator (cf. `String.splitOn`). -/
def splitOnChar (c : Char) : List Char → List (List Char)
  | [] => [[]]
  | a :: rest =>
    let r := splitOnChar c rest
    if a = c then [] :: r
    else
      match r with
      | [] => [[a]]
      | x :: xs => (a :: x) :: xs

/-- Re-parse a delimited document: split into lines (dropping the final
empty fragment after the trailing newline), then split each line into
cells. -/
def parseCsvDoc (doc : List Char) : List (List (List Char)) :=
  ((splitOnChar '\n' doc).dropLast).map (splitOnChar ',')

/-! ### Claim-level predicates and concrete inputs -/

/-- Remove thousands separators (to compare volumes "modulo the
display-time thousands-separator formatting"). -/
def stripCommas (l : List Char) : List Char := l.filter (fun c => c ≠ ',')

/-- The cell values of one on-screen row, rendered for comparison with a
re-parsed CSV record; the volume separator is stripped. -/
def screenCells (r : DisplayRow) : List (List Char) :=
  [r.date.data, ratToDec r.«open», ratToDec r.high, ratToDec r.low,
    ratToDec r.close, stripCommas r.volume.data]

/-- Claim C2 as stated: re-parsing the exported CSV yields the same
values, row for row and in the same order, as the on-screen historical
table (volume compared modulo its separators). -/
def csvMatchesScreen (bars : List Bar) : Prop :=
  (parseCsvDoc (csv_data bars)).drop 1 = (displayHist bars).map screenCells

/-- The display-side transformation of one exported record: prices
rounded, volume formatted. -/
def toDisp (r : CsvRow) : DisplayRow :=
  ⟨r.date, round2 r.«open», round2 r.high, round2 r.low, round2 r.close,
    commaNat r.volume⟩

/-- A two-bar history (concrete input for claim C2). -/
def barsCX : List Bar :=
  [⟨(2024, 1, 1), 1, 1, 1, 1, 1000⟩, ⟨(2024, 1, 2), 2, 2, 2, 2, 2000⟩]

/-- A single down-bar (close < open). -/
def barW : Bar := ⟨(2024, 1, 2), 2, 2, 1, 1, 10⟩

/-- A mapping binding `currentPrice` to `None` while the fallback key is
truthy (concrete input for claim C1). -/
def infoCX : Info :=
  [("currentPrice", PyVal.none), ("regularMarketPrice", PyVal.num 100)]

/-- A mapping with a present-but-zero market cap (claim C9). -/
def infoZ : Info := [("marketCap", PyVal.num 0)]

/-- A mapping binding several numeric fields to zero (claim C9 witness). -/
def infoZW : Info :=
  [("trailingPE", PyVal.num 0), ("dividendYield", PyVal.num 0),
   ("beta", PyVal.num 0), ("marketCap", PyVal.num 0)]

/-- A mapping with current and previous prices (claim C8 witness). -/
def infoPc : Info :=
  [("currentPrice", PyVal.num 110), ("previousClose", PyVal.num 100)]

/-! ### Claim C3: the magnitude formatter -/

/-- C3: for every numeric input the magnitude formatter returns a currency
string with suffix `T`/`B`/`M`/`K`/none according to the `1e12`/`1e9`/
`1e6`/`1e3` thresholds on the absolute value (two decimals, sign
preserved, matching the range-based spec description `formatSpec`); an
absent (`None`) or `NaN` input returns `"N/A"`; and `999`, `1000`, `1e6`
format as `"$999.00"`, `"$1.00K"`, `"$1.00M"`. -/
theorem format_large_number_spec :
    (∀ q : ℚ, format_large_number (.num q) = some (formatSpec q)) ∧
    format_large_number .none = some "N/A" ∧
    format_large_number .nan = some "N/A" ∧
    format_large_number (.num 999) = some "$999.00" ∧
    format_large_number (.num 1000) = some "$1.00K" ∧
    format_large_number (.num 1000000) = some "$1.00M" ∧
    format_large_number (.num (-1500000000)) = some "$-1.50B" := by
  refine ⟨?_, rfl, rfl, by decide, by decide, by decide, by decide⟩
  intro q
  by_cases c1 : 10 ^ 12 ≤ |q|
  · simp [format_large_number, formatSpec, c1]
  · have l1 : |q| < 10 ^ 12 := not_le.mp c1
    by_cases c2 : 10 ^ 9 ≤ |q|
    · simp [format_large_number, formatSpec, c1, c2, l1]
    · have l2 : |q| < 10 ^ 9 := not_le.mp c2
      by_cases c3 : 10 ^ 6 ≤ |q|
      · simp [format_large_number, formatSpec, c1, c2, c3, l2]
      · have l3 : |q| < 10 ^ 6 := not_le.mp c3
        by_cases c4 : 10 ^ 3 ≤ |q|
        · simp [format_large_number, formatSpec, c1, c2, c3, c4, l3]
        · simp [format_large_number, formatSpec, c1, c2, c3, c4]

/-! ### Claim C4: moving-average presence -/

/-- C4: for each window `W ∈ {20, 50}`, the `W`-day moving-average trace
(the rolling mean of the close series) is part of the chart iff the
history has at least `W` points, and these are the only moving-average
traces — with fewer points the series is omitted entirely. -/
theorem movingAverage_presence (bars : List Bar) :
    ((Trace.maLine "20-Day MA" (rollingMean 20 (closes bars)) ∈ buildChart bars) ↔
      20 ≤ bars.length) ∧
    ((Trace.maLine "50-Day MA" (rollingMean 50 (closes bars)) ∈ buildChart bars) ↔
      50 ≤ bars.length) ∧
    (buildChart bars).filter isMALine =
      (if 20 ≤ bars.length then
        [Trace.maLine "20-Day MA" (rollingMean 20 (closes bars))] else [])
      ++ (if 50 ≤ bars.length then
        [Trace.maLine "50-Day MA" (rollingMean 50 (closes bars))] else []) := by
  have hne : ("20-Day MA" : String) ≠ "50-Day MA" := by decide
  by_cases h20 : 20 ≤ bars.length <;> by_cases h50 : 50 ≤ bars.length <;>
    simp [buildChart, h20, h50, isMALine, hne]

/-! ### Claim C5: session-state atomicity -/

/-- C5: a fetch attempt either leaves all three session slots unchanged or
overwrites all three together with the data of one successful non-empty
fetch; starting from the all-absent initial state, any sequence of fetch
attempts keeps the state either fully absent or fully populated. -/
theorem sessionState_atomicity :
    (∀ (s : SessionState) (ev : String × FetchOutcome),
      fetchStep s ev = s ∨
      ∃ hist info, ev.2 = .returns hist info ∧ hist ≠ [] ∧
        fetchStep s ev = ⟨some hist, some info, some ev.1⟩) ∧
    ∀ events : List (String × FetchOutcome),
      Consistent (events.foldl fetchStep initState) := by
  have hone : ∀ (s : SessionState) (ev : String × FetchOutcome),
      fetchStep s ev = s ∨
      ∃ hist info, ev.2 = .returns hist info ∧ hist ≠ [] ∧
        fetchStep s ev = ⟨some hist, some info, some ev.1⟩ := by
    intro s ⟨sym, o⟩
    cases o with
    | raises e =>
      by_cases he : e = "" <;>
        simp [fetchStep, fetchHandler, get_stock_data, strTruthy, he]
    | returns hist info =>
      cases hist with
      | nil => simp [fetchStep, fetchHandler, get_stock_data, strTruthy]
      | cons b rest =>
        right
        exact ⟨b :: rest, info, rfl, List.cons_ne_nil b rest,
          by simp [fetchStep, fetchHandler, get_stock_data, strTruthy]⟩
  refine ⟨hone, ?_⟩
  intro events
  suffices h : ∀ s, Consistent s → Consistent (events.foldl fetchStep s) from
    h initState (Or.inl rfl)
  induction events with
  | nil => exact fun s hs => hs
  | cons ev rest ih =>
    intro s hs
    refine ih (fetchStep s ev) ?_
    rcases hone s ev with h | ⟨hist, info, _, hne, h⟩
    · rwa [h]
    · rw [h]; exact Or.inr ⟨hist, info, ev.1, hne, rfl⟩

/-! ### Claim C6: the two failure modes -/

/-- C6 counterexample: a provider exception whose text is empty is *not*
surfaced as the "Error fetching data" message — the handler tests the
message's truthiness, so it falls through to the "No data found" branch
(while the claim says every raise yields the error-text message). -/
theorem fetchHandler_emptyError :
    fetchHandler initState "AAPL" (.raises "") =
      (initState, some (noDataMsg "AAPL")) ∧
    noDataMsg "AAPL" ≠ errMsg "" := by
  constructor
  · rfl
  · decide

/-- C6 (amended): a provider exception with a non-empty message is
surfaced as the error message containing the underlying text; an
exception with an empty message and an empty returned history are both
surfaced as the "No data found" message naming the symbol; in every other
case the data is stored; session state is unchanged in all failure
modes. -/
theorem fetchHandler_failure_modes (s : SessionState) (sym e : String)
    (hist : List Bar) (info : Info) :
    (e ≠ "" → fetchHandler s sym (.raises e) = (s, some (errMsg e))) ∧
    (fetchHandler s sym (.raises "") = (s, some (noDataMsg sym))) ∧
    (fetchHandler s sym (.returns [] info) = (s, some (noDataMsg sym))) ∧
    (hist ≠ [] → fetchHandler s sym (.returns hist info) =
      (⟨some hist, some info, some sym⟩, Option.none)) := by
  refine ⟨fun he => ?_, ?_, ?_, fun hh => ?_⟩ <;>
    simp [fetchHandler, get_stock_data, strTruthy, *]

/-- Witness for C6 at concrete inputs. -/
theorem fetchHandler_failure_modes_w :
    fetchHandler initState "AAPL" (.raises "boom") =
      (initState, some (errMsg "boom")) ∧
    fetchHandler initState "AAPL" (.returns [barW] []) =
      (⟨some [barW], some [], some "AAPL"⟩, Option.none) :=
  ⟨(fetchHandler_failure_modes initState "AAPL" "boom" [barW] []).1 (by decide),
   (fetchHandler_failure_modes initState "AAPL" "boom" [barW] []).2.2.2 (by simp)⟩

/-! ### Claim C7: volume-bar colors -/

/-- C7: the volume-bar color list has one entry per bar in history order,
and the entry for a bar is `"red"` exactly when that bar's close is below
its open and `"green"` exactly when its close is at or above its open — a
purely local, per-bar classification. -/
theorem barColors_local (bars : List Bar) (i : Nat) (b : Bar)
    (hb : bars[i]? = some b) :
    (barColors bars).length = bars.length ∧
    ((barColors bars)[i]? = some "red" ↔ b.close < b.«open») ∧
    ((barColors bars)[i]? = some "green" ↔ b.«open» ≤ b.close) := by
  have hne : ("red" : String) ≠ "green" := by decide
  refine ⟨by simp [barColors], ?_, ?_⟩
  · rw [barColors, List.getElem?_map, hb]
    by_cases hc : b.close < b.«open» <;> simp [hc, hne.symm]
  · rw [barColors, List.getElem?_map, hb]
    by_cases hc : b.close < b.«open»
    · simp [hc, hne, not_le.mpr hc]
    · simp [hc, hne, not_lt.mp hc]

/-- Witness for C7: a one-bar history with close below open classifies
red. -/
theorem barColors_local_w :
    (barColors [barW]).length = [barW].length ∧
    ((barColors [barW])[0]? = some "red" ↔ barW.close < barW.«open») ∧
    ((barColors [barW])[0]? = some "green" ↔ barW.«open» ≤ barW.close) :=
  barColors_local [barW] 0 barW (by decide)

/-! ### Claim C1: the metrics table on missing fields -/

theorem lookup_numeric (info : Info) (h : infoNumeric info = true) (k : String) :
    lookupInfo info k = Option.none ∨ ∃ q, lookupInfo info k = some (.num q) := by
  induction info with
  | nil => exact Or.inl rfl
  | cons p rest ih =>
    rcases p with ⟨k0, v⟩
    rw [infoNumeric, List.all_cons, Bool.and_eq_true] at h
    obtain ⟨hv, hrest⟩ := h
    by_cases hk : k0 = k
    · subst hk
      cases v with
      | num q => exact Or.inr ⟨q, by simp [lookupInfo]⟩
      | none => simp [isNum] at hv
      | nan => simp [isNum] at hv
      | str s => simp [isNum] at hv
    · simpa [lookupInfo, hk] using ih hrest

theorem seqOpt_isSome {α : Type} (l : List (Option α))
    (h : ∀ x ∈ l, x.isSome = true) : (seqOpt l).isSome = true := by
  induction l with
  | nil => rfl
  | cons a rest ih =>
    cases a with
    | none => simpa using h _ (List.mem_cons_self _ _)
    | some a =>
      have hr := ih fun x hx => h x (List.mem_cons_of_mem _ hx)
      cases hs : seqOpt rest with
      | none => rw [hs] at hr; simp at hr
      | some l => simp [seqOpt, hs]

theorem pairDollar_total (info : Info) (k1 k2 : String)
    (h : infoNumeric info = true) : (valuePairDollar info k1 k2).isSome = true := by
  unfold valuePairDollar
  rcases lookup_numeric info h k1 with h1 | ⟨q1, h1⟩
  · rcases lookup_numeric info h k2 with h2 | ⟨q2, h2⟩
    · simp [getOpt, getD, h1, h2, truthy]
    · by_cases hz : q2 = 0 <;>
        simp [getOpt, getD, h1, h2, truthy, hz, fmtDollar2, applyFmt2]
  · by_cases hz : q1 = 0
    · rcases lookup_numeric info h k2 with h2 | ⟨q2, h2⟩
      · simp [getOpt, getD, h1, h2, truthy, hz]
      · by_cases hz2 : q2 = 0 <;>
          simp [getOpt, getD, h1, h2, truthy, hz, hz2, fmtDollar2, applyFmt2]
    · simp [getOpt, getD, h1, truthy, hz, fmtDollar2, applyFmt2]

theorem singleDollar_total (info : Info) (k : String)
    (h : infoNumeric info = true) : (valueSingleDollar info k).isSome = true := by
  unfold valueSingleDollar
  rcases lookup_numeric info h k with h1 | ⟨q, h1⟩
  · simp [getOpt, getD, h1, truthy]
  · by_cases hz : q = 0 <;>
      simp [getOpt, getD, h1, truthy, hz, fmtDollar2, applyFmt2]

theorem singlePlain_total (info : Info) (k : String)
    (h : infoNumeric info = true) : (valueSinglePlain info k).isSome = true := by
  unfold valueSinglePlain
  rcases lookup_numeric info h k with h1 | ⟨q, h1⟩
  · simp [getOpt, getD, h1, truthy]
  · by_cases hz : q = 0 <;> simp [getOpt, getD, h1, truthy, hz, applyFmt2]

theorem pct0_total (info : Info) (k : String)
    (h : infoNumeric info = true) : (valuePct0 info k).isSome = true := by
  unfold valuePct0
  rcases lookup_numeric info h k with h1 | ⟨q, h1⟩
  · simp [getOpt, getD, h1, truthy]
  · by_cases hz : q = 0 <;> simp [getOpt, getD, h1, truthy, hz, applyFmtPct]

theorem pairComma_total (info : Info) (k1 k2 : String)
    (h : infoNumeric info = true) : (valuePairComma info k1 k2).isSome = true := by
  unfold valuePairComma
  rcases lookup_numeric info h k1 with h1 | ⟨q1, h1⟩
  · rcases lookup_numeric info h k2 with h2 | ⟨q2, h2⟩
    · simp [getOpt, getD, h1, h2, truthy]
    · by_cases hz : q2 = 0 <;>
        simp [getOpt, getD, h1, h2, truthy, hz, applyFmtComma]
  · by_cases hz : q1 = 0
    · rcases lookup_numeric info h k2 with h2 | ⟨q2, h2⟩
      · simp [getOpt, getD, h1, h2, truthy, hz]
      · by_cases hz2 : q2 = 0 <;>
          simp [getOpt, getD, h1, h2, truthy, hz, hz2, applyFmtComma]
    · simp [getOpt, getD, h1, truthy, hz, applyFmtComma]

theorem singleComma_total (info : Info) (k : String)
    (h : infoNumeric info = true) : (valueSingleComma info k).isSome = true := by
  unfold valueSingleComma
  rcases lookup_numeric info h k with h1 | ⟨q, h1⟩
  · simp [getOpt, getD, h1, truthy]
  · by_cases hz : q = 0 <;> simp [getOpt, getD, h1, truthy, hz, applyFmtComma]

theorem fln_total (info : Info) (k : String)
    (h : infoNumeric info = true) :
    (format_large_number (getOpt info k)).isSome = true := by
  rcases lookup_numeric info h k with h1 | ⟨q, h1⟩ <;>
    simp [getOpt, getD, h1, format_large_number]

theorem pairDollar_absent (info : Info) (k1 k2 : String)
    (h1 : lookupInfo info k1 = Option.none)
    (h2 : lookupInfo info k2 = Option.none) :
    valuePairDollar info k1 k2 = some "N/A" := by
  simp [valuePairDollar, getOpt, getD, h1, h2, truthy]

theorem singleDollar_absent (info : Info) (k : String)
    (h1 : lookupInfo info k = Option.none) :
    valueSingleDollar info k = some "N/A" := by
  simp [valueSingleDollar, getOpt, getD, h1, truthy]

theorem singlePlain_absent (info : Info) (k : String)
    (h1 : lookupInfo info k = Option.none) :
    valueSinglePlain info k = some "N/A" := by
  simp [valueSinglePlain, getOpt, getD, h1, truthy]

theorem pct0_absent (info : Info) (k : String)
    (h1 : lookupInfo info k = Option.none) :
    valuePct0 info k = some "N/A" := by
  simp [valuePct0, getOpt, getD, h1, truthy]

theorem pairComma_absent (info : Info) (k1 k2 : String)
    (h1 : lookupInfo info k1 = Option.none)
    (h2 : lookupInfo info k2 = Option.none) :
    valuePairComma info k1 k2 = some "N/A" := by
  simp [valuePairComma, getOpt, getD, h1, h2, truthy]

theorem singleComma_absent (info : Info) (k : String)
    (h1 : lookupInfo info k = Option.none) :
    valueSingleComma info k = some "N/A" := by
  simp [valueSingleComma, getOpt, getD, h1, truthy]

theorem fln_absent (info : Info) (k : String)
    (h1 : lookupInfo info k = Option.none) :
    format_large_number (getOpt info k) = some "N/A" := by
  simp [getOpt, getD, h1, format_large_number]

/-- C1 counterexample: for the mapping binding `currentPrice` to `None`
with a truthy `regularMarketPrice` fallback, building the Value column
raises a `TypeError` (formatting `None` with `:.2f`) instead of rendering
`"N/A"` — the build is not total over mappings where a key is present but
bound to `None`. -/
theorem metricsTable_none_crash :
    buildValues infoCX = Option.none ∧ valueRowN infoCX 0 = Option.none := by
  decide

/-- C1 (amended): over metadata mappings that bind only numbers, building
the 23-entry Value column is total, and any row all of whose source keys
are missing renders the `"N/A"` sentinel; however a key present but bound
to `None` while its fallback key is truthy makes the corresponding row
raise instead of rendering `"N/A"` (see the counterexample). -/
theorem metricsTable_missing_fields (info : Info) (h : infoNumeric info = true) :
    (buildValues info).isSome = true ∧
    ∀ i, i < 23 → (∀ k ∈ rowKeysN i, lookupInfo info k = Option.none) →
      valueRowN info i = some "N/A" := by
  constructor
  · unfold buildValues
    apply seqOpt_isSome
    intro x hx
    obtain ⟨i, hi, rfl⟩ := List.mem_map.mp hx
    have hi23 : i < 23 := List.mem_range.mp hi
    interval_cases i <;> simp only [valueRowN] <;>
      first
        | exact pairDollar_total info _ _ h
        | exact singleDollar_total info _ h
        | exact singlePlain_total info _ h
        | exact pct0_total info _ h
        | exact pairComma_total info _ _ h
        | exact singleComma_total info _ h
        | exact fln_total info _ h
  · intro i hi hk
    interval_cases i <;> simp only [valueRowN] <;>
      first
        | exact pairDollar_absent info _ _ (hk _ (by simp [rowKeysN]))
            (hk _ (by simp [rowKeysN]))
        | exact singleDollar_absent info _ (hk _ (by simp [rowKeysN]))
        | exact singlePlain_absent info _ (hk _ (by simp [rowKeysN]))
        | exact pct0_absent info _ (hk _ (by simp [rowKeysN]))
        | exact pairComma_absent info _ _ (hk _ (by simp [rowKeysN]))
            (hk _ (by simp [rowKeysN]))
        | exact singleComma_absent info _ (hk _ (by simp [rowKeysN]))
        | exact fln_absent info _ (hk _ (by simp [rowKeysN]))

/-- Witness for C1 at the empty mapping: the build succeeds and the first
row renders `"N/A"`. -/
theorem metricsTable_missing_fields_w :
    (buildValues []).isSome = true ∧ valueRowN [] 0 = some "N/A" :=
  ⟨(metricsTable_missing_fields [] rfl).1,
   (metricsTable_missing_fields [] rfl).2 0 (by omega) (fun k _ => rfl)⟩

/-! ### Claim C9: present-but-zero numeric fields -/

/-- C9 counterexample: a present `marketCap` of exactly `0` renders as the
formatted value `"$0.00"`, not as `"N/A"` — so it is not the case that
every zero-valued numeric field renders the sentinel. -/
theorem marketCap_zero_formats :
    valueRowN infoZ 7 = some "$0.00" ∧ valueRowN infoZ 7 ≠ some "N/A" := by
  decide

/-- C9 (amended): numeric fields guarded by Python truthiness render
`"N/A"` when bound to exactly `0` (P/E ratio, dividend yield and beta, in
the table rows and in the metric tiles), but the fields passed to the
magnitude formatter (market cap, revenue) render the formatted zero
`"$0.00"` instead. -/
theorem zeroValue_rendering (info : Info) :
    (lookupInfo info "trailingPE" = some (.num 0) →
      valueRowN info 8 = some "N/A" ∧ peTile info = some "N/A") ∧
    (lookupInfo info "dividendYield" = some (.num 0) →
      valueRowN info 13 = some "N/A" ∧ divYieldTile info = some "N/A") ∧
    (lookupInfo info "beta" = some (.num 0) → valueRowN info 15 = some "N/A") ∧
    (lookupInfo info "marketCap" = some (.num 0) →
      valueRowN info 7 = some "$0.00" ∧ marketCapTile info = some "$0.00") := by
  refine ⟨fun h => ⟨?_, ?_⟩, fun h => ⟨?_, ?_⟩, fun h => ?_, fun h => ?_⟩
  · simp [valueRowN, valueSinglePlain, getOpt, getD, h, truthy]
  · simp [peTile, getOpt, getD, h, truthy]
  · simp [valueRowN, valuePct0, getOpt, getD, h, truthy]
  · simp [divYieldTile, getOpt, getD, h, truthy]
  · simp [valueRowN, valueSinglePlain, getOpt, getD, h, truthy]
  · have hm : getOpt info "marketCap" = .num 0 := by simp [getOpt, getD, h]
    exact ⟨by simp only [valueRowN]; rw [hm]; decide,
      by simp only [marketCapTile]; rw [hm]; decide⟩

/-- Witness for C9 at a mapping binding the four fields to zero. -/
theorem zeroValue_rendering_w :
    (valueRowN infoZW 8 = some "N/A" ∧ peTile infoZW = some "N/A") ∧
    (valueRowN infoZW 13 = some "N/A" ∧ divYieldTile infoZW = some "N/A") ∧
    valueRowN infoZW 15 = some "N/A" ∧
    (valueRowN infoZW 7 = some "$0.00" ∧ marketCapTile infoZW = some "$0.00") :=
  ⟨(zeroValue_rendering infoZW).1 (by decide),
   (zeroValue_rendering infoZW).2.1 (by decide),
   (zeroValue_rendering infoZW).2.2.1 (by decide),
   (zeroValue_rendering infoZW).2.2.2 (by decide)⟩

/-! ### Claim C8: the price-change percentage -/

theorem current_price_num (info : Info) (h : infoNumeric info = true) :
    ∃ c, current_price info = .num c := by
  unfold current_price pyOr
  have h2 : ∃ r, (lookupInfo info "regularMarketPrice").getD (PyVal.num 0) = .num r := by
    rcases lookup_numeric info h "regularMarketPrice" with h2 | ⟨r, h2⟩
    · exact ⟨0, by simp [h2]⟩
    · exact ⟨r, by simp [h2]⟩
  obtain ⟨r, hr⟩ := h2
  rcases lookup_numeric info h "currentPrice" with h1 | ⟨q, h1⟩
  · exact ⟨r, by simp [getOpt, getD, h1, truthy, hr]⟩
  · by_cases hq : q = 0
    · exact ⟨r, by simp [getOpt, getD, h1, truthy, hq, hr]⟩
    · exact ⟨q, by simp [getOpt, getD, h1, truthy, hq]⟩

theorem previous_close_num (info : Info) (h : infoNumeric info = true) :
    ∃ p, previous_close info = .num p := by
  unfold previous_close
  rcases lookup_numeric info h "previousClose" with h1 | ⟨p, h1⟩
  · exact ⟨0, by simp [getD, h1]⟩
  · exact ⟨p, by simp [getD, h1]⟩

/-- C8: whenever the previous close is absent or zero (falsy), the
computed percentage is `0` and no delta is displayed; and whenever a delta
is displayed, the percentage equals
`(current − previous) / previous × 100` with a non-zero previous close —
in particular no division by zero is ever evaluated. -/
theorem price_change_pct_spec (info : Info) (h : infoNumeric info = true) :
    (truthy (previous_close info) = false →
      price_change_pct info = some (.num 0) ∧
      deltaDisplay info = some Option.none) ∧
    ∀ s : String, deltaDisplay info = some (some s) →
      ∃ c p : ℚ, current_price info = .num c ∧ previous_close info = .num p ∧
        p ≠ 0 ∧ price_change_pct info = some (.num ((c - p) / p * 100)) := by
  obtain ⟨c, hc⟩ := current_price_num info h
  obtain ⟨p, hp⟩ := previous_close_num info h
  constructor
  · intro hf
    have hpc : price_change info = some (.num 0) := by
      simp [price_change, hf]
    refine ⟨by simp [price_change_pct, hf], ?_⟩
    simp [deltaDisplay, hpc, truthy]
  · intro s hs
    by_cases hg : truthy (current_price info) && truthy (previous_close info)
    · have hpc : price_change info = some (.num (c - p)) := by
        unfold price_change
        rw [if_pos hg, hc, hp]
        simp [pySub]
      have hptrue : truthy (previous_close info) = true :=
        (Bool.and_eq_true _ _).mp hg |>.2
      have hpne : p ≠ 0 := by
        intro hz
        rw [hp, hz] at hptrue
        simp [truthy] at hptrue
      refine ⟨c, p, hc, hp, hpne, ?_⟩
      unfold price_change_pct
      rw [if_pos hptrue, hpc]
      simp [pyDivMul100, hp, hpne]
    · have hpc : price_change info = some (.num 0) := by
        simp only [price_change]
        rw [if_neg hg]
      rw [deltaDisplay, hpc] at hs
      simp [truthy] at hs

/-- Witness for C8: with current price 110 and previous close 100 the
delta is displayed and the percentage is `(110 − 100) / 100 × 100`. -/
theorem price_change_pct_spec_w :
    (price_change_pct [] = some (.num 0) ∧ deltaDisplay [] = some Option.none) ∧
    ∃ c p : ℚ, current_price infoPc = .num c ∧ previous_close infoPc = .num p ∧
      p ≠ 0 ∧ price_change_pct infoPc = some (.num ((c - p) / p * 100)) :=
  ⟨(price_change_pct_spec [] rfl).1 (by decide),
   (price_change_pct_spec infoPc (by decide)).2 "+10.00 (+10.00%)" (by decide)⟩

/-! ### Claim C10: the MA columns never reach the display or the export -/

theorem filterMapCongr {α β : Type} (f g : α → Option β) :
    ∀ l : List α, (∀ a ∈ l, f a = g a) → l.filterMap f = l.filterMap g := by
  intro l
  induction l with
  | nil => intro _; rfl
  | cons a t ih =>
    intro h
    rw [List.filterMap_cons, List.filterMap_cons, h a (List.mem_cons_self _ _),
      ih fun x hx => h x (List.mem_cons_of_mem _ hx)]

theorem lookupCol_append_ne (fr : Frame) (m : String) (col : List Cell)
    (k : String) (hk : k ≠ m) :
    lookupCol (fr ++ [(m, col)]) k = lookupCol fr k := by
  induction fr with
  | nil => simp [lookupCol, Ne.symm hk]
  | cons p rest ih =>
    by_cases hp : p.1 = k <;> simp [lookupCol, hp, ih]

theorem lookupCol_append_right (fr : Frame) (m : String) (col : List Cell)
    (h : lookupCol fr m = Option.none) :
    lookupCol (fr ++ [(m, col)]) m = some col := by
  induction fr with
  | nil => simp [lookupCol]
  | cons p rest ih =>
    by_cases hp : p.1 = m
    · rw [lookupCol, if_pos hp] at h
      exact absurd h (by simp)
    · rw [lookupCol, if_neg hp] at h
      simpa [lookupCol, hp] using ih h

/-- C10: adding the moving-average columns mutates the stored history
frame (the MA columns become present exactly when the window fits), yet
selecting the six display columns — which is what both the on-screen
table and the CSV export do — yields exactly the original six columns,
and the selected column names never include `MA20` or `MA50`. -/
theorem maColumns_hidden (bars : List Bar) :
    selectCols displayCols (addMovingAverages (histFrame bars)) =
      selectCols displayCols (histFrame bars) ∧
    (selectCols displayCols (addMovingAverages (histFrame bars))).map Prod.fst =
      displayCols ∧
    displayCols.contains "MA20" = false ∧
    displayCols.contains "MA50" = false ∧
    lookupCol (addMovingAverages (histFrame bars)) "MA20" =
      (if 20 ≤ bars.length then
        some ((rollingMean 20 (closes bars)).map Cell.ov) else Option.none) ∧
    lookupCol (addMovingAverages (histFrame bars)) "MA50" =
      (if 50 ≤ bars.length then
        some ((rollingMean 50 (closes bars)).map Cell.ov) else Option.none) := by
  have hnames : (histFrame bars).map Prod.fst = displayCols := by
    simp [histFrame, displayCols]
  have hn0 : nrows (histFrame bars) = bars.length := by
    simp [nrows, histFrame]
  have hqv : ∀ xs : List ℚ,
      (xs.map Cell.qv).filterMap (fun c =>
        match c with
        | Cell.qv x => some x
        | _ => Option.none) = xs := by
    intro xs
    induction xs with
    | nil => rfl
    | cons x t ih => simp [ih]
  have hcl : colCloses (histFrame bars) = closes bars := by
    have hlk : lookupCol (histFrame bars) "Close" =
        some (bars.map (fun b => Cell.qv b.close)) := rfl
    have hmm : bars.map (fun b => Cell.qv b.close) = (closes bars).map Cell.qv := by
      simp [closes, List.map_map]
    rw [colCloses, hlk]
    simpa [hmm] using hqv (closes bars)
  have hlkMA20 : lookupCol (histFrame bars) "MA20" = Option.none := rfl
  have hlkMA50 : lookupCol (histFrame bars) "MA50" = Option.none := rfl
  have hkd : ∀ k ∈ displayCols, k ≠ "MA20" ∧ k ≠ "MA50" := by decide
  -- canonical forms for the mutated frame in the three length regimes
  by_cases h20 : 20 ≤ bars.length
  · have hset20 : setCol (histFrame bars) "MA20"
        ((rollingMean 20 (colCloses (histFrame bars))).map Cell.ov) =
        histFrame bars ++ [("MA20", (rollingMean 20 (closes bars)).map Cell.ov)] := by
      rw [setCol, if_neg (by rw [hnames]; decide), hcl]
    have hfr1names : ∀ k, k ≠ "MA20" →
        lookupCol (histFrame bars ++
          [("MA20", (rollingMean 20 (closes bars)).map Cell.ov)]) k =
        lookupCol (histFrame bars) k :=
      fun k hk => lookupCol_append_ne _ _ _ _ hk
    have hn1 : nrows (histFrame bars ++
        [("MA20", (rollingMean 20 (closes bars)).map Cell.ov)]) = bars.length := by
      simp [nrows, histFrame]
    have hcl1 : colCloses (histFrame bars ++
        [("MA20", (rollingMean 20 (closes bars)).map Cell.ov)]) = closes bars := by
      rw [colCloses, hfr1names "Close" (by decide)]
      rw [colCloses] at hcl
      exact hcl
    by_cases h50 : 50 ≤ bars.length
    · -- both columns are added
      have hkey : addMovingAverages (histFrame bars) =
          histFrame bars ++
            [("MA20", (rollingMean 20 (closes bars)).map Cell.ov)] ++
            [("MA50", (rollingMean 50 (closes bars)).map Cell.ov)] := by
        rw [addMovingAverages, hn0, if_pos h20, hset20, hn1, if_pos h50, hcl1]
        rw [setCol, if_neg ?hne]
        case hne =>
          rw [List.map_append, hnames]
          intro hmem
          rcases List.mem_append.mp hmem with hd | hd
          · exact absurd hd (by decide)
          · simp at hd
      rw [hkey]
      have hsel : ∀ k, k ∈ displayCols →
          lookupCol (histFrame bars ++
            [("MA20", (rollingMean 20 (closes bars)).map Cell.ov)] ++
            [("MA50", (rollingMean 50 (closes bars)).map Cell.ov)]) k =
          lookupCol (histFrame bars) k := by
        intro k hkmem
        rw [lookupCol_append_ne _ _ _ _ (hkd k hkmem).2,
          hfr1names k (hkd k hkmem).1]
      have hseleq : selectCols displayCols (histFrame bars ++
            [("MA20", (rollingMean 20 (closes bars)).map Cell.ov)] ++
            [("MA50", (rollingMean 50 (closes bars)).map Cell.ov)]) =
          selectCols displayCols (histFrame bars) := by
        unfold selectCols
        exact filterMapCongr _ _ _ fun c hc => by rw [hsel c hc]
      refine ⟨hseleq, ?_, by decide, by decide, ?_, ?_⟩
      · rw [hseleq]
        rfl
      · rw [if_pos h20, lookupCol_append_ne _ _ _ _ (by decide)]
        exact lookupCol_append_right _ _ _ hlkMA20
      · rw [if_pos h50]
        apply lookupCol_append_right
        rw [hfr1names "MA50" (by decide)]
        exact hlkMA50
    · -- only MA20 is added
      have hkey : addMovingAverages (histFrame bars) =
          histFrame bars ++
            [("MA20", (rollingMean 20 (closes bars)).map Cell.ov)] := by
        rw [addMovingAverages, hn0, if_pos h20, hset20, hn1, if_neg h50]
      rw [hkey]
      have hseleq : selectCols displayCols (histFrame bars ++
            [("MA20", (rollingMean 20 (closes bars)).map Cell.ov)]) =
          selectCols displayCols (histFrame bars) := by
        unfold selectCols
        refine filterMapCongr _ _ _ fun c hc => ?_
        rw [hfr1names c (hkd c hc).1]
      refine ⟨hseleq, ?_, by decide, by decide, ?_, ?_⟩
      · rw [hseleq]
        rfl
      · rw [if_pos h20]
        exact lookupCol_append_right _ _ _ hlkMA20
      · rw [if_neg h50, hfr1names "MA50" (by decide)]
        exact hlkMA50
  · -- no column is added
    have h50 : ¬ 50 ≤ bars.length := by omega
    have hkey : addMovingAverages (histFrame bars) = histFrame bars := by
      rw [addMovingAverages, hn0, if_neg h20, hn0, if_neg h50]
    rw [hkey]
    exact ⟨rfl, by rw [show selectCols displayCols (histFrame bars) = histFrame bars
        from rfl, hnames], by decide, by decide,
      by rw [if_neg h20]; exact hlkMA20, by rw [if_neg h50]; exact hlkMA50⟩

/-! ### Claim C2: CSV export versus the on-screen table -/

theorem splitOnChar_ne_nil (c : Char) (l : List Char) : splitOnChar c l ≠ [] := by
  induction l with
  | nil => simp [splitOnChar]
  | cons a rest ih =>
    rw [splitOnChar]
    cases hr : splitOnChar c rest with
    | nil => exact absurd hr ih
    | cons x xs => by_cases ha : a = c <;> simp [ha, hr]

theorem splitOnChar_not_mem (c : Char) (l : List Char) (h : c ∉ l) :
    splitOnChar c l = [l] := by
  induction l with
  | nil => rfl
  | cons a rest ih =>
    have ha : ¬ a = c := by
      intro heq
      subst heq
      exact h (List.mem_cons_self _ _)
    have hrest : c ∉ rest := fun hm => h (List.mem_cons_of_mem _ hm)
    rw [splitOnChar, ih hrest]
    simp [ha]

theorem splitOnChar_append (c : Char) (x ys : List Char) (h : c ∉ x) :
    splitOnChar c (x ++ c :: ys) = x :: splitOnChar c ys := by
  induction x with
  | nil => simp [splitOnChar]
  | cons a x' ih =>
    have ha : ¬ a = c := by
      intro heq
      subst heq
      exact h (List.mem_cons_self _ _)
    have hx : c ∉ x' := fun hm => h (List.mem_cons_of_mem _ hm)
    rw [List.cons_append, splitOnChar, ih hx]
    simp [ha]

theorem joinWith_not_mem (sep ch : Char) (cells : List (List Char))
    (hns : ch ≠ sep) (h : ∀ x ∈ cells, ch ∉ x) : ch ∉ joinWith sep cells := by
  induction cells with
  | nil => simp [joinWith]
  | cons x rest ih =>
    cases rest with
    | nil => simpa [joinWith] using h x (List.mem_cons_self _ _)
    | cons y t =>
      show ch ∉ x ++ sep :: joinWith sep (y :: t)
      intro hmem
      rcases List.mem_append.mp hmem with hm | hm
      · exact h x (List.mem_cons_self _ _) hm
      · rcases List.mem_cons.mp hm with hm | hm
        · exact hns hm
        · exact ih (fun z hz => h z (List.mem_cons_of_mem _ hz)) hm

theorem joinWith_split (c : Char) (cells : List (List Char)) (hne : cells ≠ [])
    (h : ∀ x ∈ cells, c ∉ x) : splitOnChar c (joinWith c cells) = cells := by
  induction cells with
  | nil => exact absurd rfl hne
  | cons x rest ih =>
    cases rest with
    | nil => exact splitOnChar_not_mem c x (h x (List.mem_cons_self _ _))
    | cons y t =>
      show splitOnChar c (x ++ c :: joinWith c (y :: t)) = x :: y :: t
      rw [splitOnChar_append c x _ (h x (List.mem_cons_self _ _)),
        ih (by simp) (fun z hz => h z (List.mem_cons_of_mem _ hz))]

theorem lines_split (ls : List (List Char)) (h : ∀ l ∈ ls, '\n' ∉ l) :
    splitOnChar '\n' ((ls.map fun l => l ++ ['\n']).flatten) = ls ++ [[]] := by
  induction ls with
  | nil => rfl
  | cons l rest ih =>
    rw [List.map_cons, List.flatten_cons, List.append_assoc,
      List.singleton_append,
      splitOnChar_append _ _ _ (h l (List.mem_cons_self _ _)),
      ih (fun z hz => h z (List.mem_cons_of_mem _ hz))]
    rfl

theorem mapSplitJoin (rs : List (List (List Char)))
    (h1 : ∀ r ∈ rs, r ≠ [])
    (h2 : ∀ r ∈ rs, ∀ cell ∈ r, ',' ∉ cell) :
    rs.map (fun r => splitOnChar ',' (joinWith ',' r)) = rs := by
  induction rs with
  | nil => rfl
  | cons r rest ih =>
    rw [List.map_cons,
      joinWith_split ',' r (h1 r (List.mem_cons_self _ _))
        (fun x hx => h2 r (List.mem_cons_self _ _) x hx),
      ih (fun z hz => h1 z (List.mem_cons_of_mem _ hz))
        (fun z hz => h2 z (List.mem_cons_of_mem _ hz))]

/-- Re-parsing a serialized table recovers it exactly, provided every row
is non-empty and no cell contains a separator character. -/
theorem parse_toCsv (rows : List (List (List Char)))
    (h1 : ∀ r ∈ rows, r ≠ [])
    (h2 : ∀ r ∈ rows, ∀ cell ∈ r, ',' ∉ cell ∧ '\n' ∉ cell) :
    parseCsvDoc (toCsvDoc rows) = rows := by
  have hlines : ∀ r ∈ rows, '\n' ∉ joinWith ',' r := fun r hr =>
    joinWith_not_mem ',' '\n' r (by decide) (fun x hx => (h2 r hr x hx).2)
  rw [parseCsvDoc, toCsvDoc]
  have hmm : (rows.map fun r => joinWith ',' r ++ ['\n']) =
      ((rows.map fun r => joinWith ',' r).map fun l => l ++ ['\n']) := by
    rw [List.map_map]
    rfl
  rw [hmm, lines_split _ (by
    intro l hl
    obtain ⟨r, hr, rfl⟩ := List.mem_map.mp hl
    exact hlines r hr)]
  rw [List.dropLast_concat, List.map_map]
  exact mapSplitJoin rows h1 (fun r hr cell hc => (h2 r hr cell hc).1)

theorem clean_of_chars (cell : List Char)
    (h : ∀ ch ∈ cell, ch ≠ ',' ∧ ch ≠ '\n') : ',' ∉ cell ∧ '\n' ∉ cell :=
  ⟨fun hm => (h _ hm).1 rfl, fun hm => (h _ hm).2 rfl⟩

theorem digitChar_isDigit (m : Nat) (hm : m < 10) :
    (Nat.digitChar m).isDigit = true := by
  interval_cases m <;> decide

theorem digitsGo_digits (fuel : Nat) :
    ∀ (n : Nat) (acc : List Char), (∀ ch ∈ acc, ch.isDigit = true) →
      ∀ ch ∈ digitsGo fuel n acc, ch.isDigit = true := by
  induction fuel with
  | zero => exact fun n acc hacc => hacc
  | succ fuel ih =>
    intro n acc hacc ch hch
    rw [digitsGo] at hch
    by_cases hn : n < 10
    · rw [if_pos hn] at hch
      rcases List.mem_cons.mp hch with h | h
      · subst h
        exact digitChar_isDigit n hn
      · exact hacc ch h
    · rw [if_neg hn] at hch
      refine ih (n / 10) _ ?_ ch hch
      intro c hc
      rcases List.mem_cons.mp hc with h | h
      · subst h
        exact digitChar_isDigit _ (Nat.mod_lt _ (by omega))
      · exact hacc c h

theorem natDigits_clean (n : Nat) : ∀ ch ∈ natDigits n, ch ≠ ',' ∧ ch ≠ '\n' := by
  intro ch hch
  have hd := digitsGo_digits (n + 1) n [] (by simp) ch hch
  constructor <;> intro heq <;> subst heq <;> exact absurd hd (by decide)

theorem padZeros_clean (w : Nat) (l : List Char)
    (h : ∀ ch ∈ l, ch ≠ ',' ∧ ch ≠ '\n') :
    ∀ ch ∈ padZeros w l, ch ≠ ',' ∧ ch ≠ '\n' := by
  intro ch hch
  rcases List.mem_append.mp hch with hm | hm
  · have hch0 := List.eq_of_mem_replicate hm
    subst hch0
    exact ⟨by decide, by decide⟩
  · exact h ch hm

theorem decimalOf_clean (m k : Nat) : ∀ ch ∈ decimalOf m k, ch ≠ ',' ∧ ch ≠ '\n' := by
  intro ch hch
  simp only [decimalOf] at hch
  by_cases hk : k = 0
  · rw [if_pos hk] at hch
    exact natDigits_clean m ch hch
  · rw [if_neg hk] at hch
    rcases List.mem_append.mp hch with hm | hm
    · exact padZeros_clean _ _ (natDigits_clean m) ch (List.mem_of_mem_take hm)
    · rcases List.mem_cons.mp hm with hm | hm
      · subst hm
        exact ⟨by decide, by decide⟩
      · exact padZeros_clean _ _ (natDigits_clean m) ch (List.mem_of_mem_drop hm)

theorem sign_clean (q : ℚ) : ∀ ch ∈ (if q < 0 then ['-'] else []),
    ch ≠ ',' ∧ ch ≠ '\n' := by
  intro ch hch
  by_cases hq : q < 0
  · rw [if_pos hq] at hch
    rcases List.mem_singleton.mp hch with rfl
    exact ⟨by decide, by decide⟩
  · rw [if_neg hq] at hch
    simp at hch

theorem ratToDec_clean (q : ℚ) : ∀ ch ∈ ratToDec q, ch ≠ ',' ∧ ch ≠ '\n' := by
  intro ch hch
  simp only [ratToDec] at hch
  by_cases hd : q.den ∣ 10 ^ (max (multOf 2 q.den) (multOf 5 q.den))
  · rw [if_pos hd] at hch
    rcases List.mem_append.mp hch with hm | hm
    · exact sign_clean q ch hm
    · exact decimalOf_clean _ _ ch hm
  · rw [if_neg hd] at hch
    rcases List.mem_append.mp hch with hm | hm
    · rcases List.mem_append.mp hm with hm2 | hm2
      · exact sign_clean q ch hm2
      · exact natDigits_clean _ ch hm2
    · rcases List.mem_cons.mp hm with hm3 | hm3
      · subst hm3
        exact ⟨by decide, by decide⟩
      · exact natDigits_clean _ ch hm3

theorem fmtDate_clean (d : Date) :
    ∀ ch ∈ (fmtDate d).data, ch ≠ ',' ∧ ch ≠ '\n' := by
  intro ch hch
  have hd2 : (fmtDate d).data = padZeros 4 (natDigits d.1) ++ '-' ::
      (padZeros 2 (natDigits d.2.1) ++ '-' :: padZeros 2 (natDigits d.2.2)) := rfl
  rw [hd2] at hch
  rcases List.mem_append.mp hch with hm | hm
  · exact padZeros_clean _ _ (natDigits_clean _) ch hm
  · rcases List.mem_cons.mp hm with hm | hm
    · subst hm
      exact ⟨by decide, by decide⟩
    · rcases List.mem_append.mp hm with hm2 | hm2
      · exact padZeros_clean _ _ (natDigits_clean _) ch hm2
      · rcases List.mem_cons.mp hm2 with hm3 | hm3
        · subst hm3
          exact ⟨by decide, by decide⟩
        · exact padZeros_clean _ _ (natDigits_clean _) ch hm3

/-- C2 counterexample: for a concrete two-bar history, re-parsing the
exported CSV does *not* match the on-screen table (even modulo the volume
separators): the display is reverse-chronological while the CSV keeps the
fetched chronological order, so the rows disagree. -/
theorem csvExport_mismatch : ¬ csvMatchesScreen barsCX := by
  unfold csvMatchesScreen
  decide

/-- C2 (amended): re-parsing the exported CSV recovers exactly the header
and the exported records — which are the *unrounded*, *chronological*
bars; the on-screen table is instead the reversed sequence of those
records with prices rounded to two decimals and volumes
thousands-formatted.  So the round trip is exact with respect to the
export, but the export is derived from the raw in-memory history, not
from the displayed table: row order and price rounding differ between the
two (see the counterexample). -/
theorem csvExport_roundtrip (bars : List Bar) :
    parseCsvDoc (csv_data bars) = headerCells :: (csvHist bars).map csvCells ∧
    displayHist bars = ((csvHist bars).map toDisp).reverse := by
  constructor
  · rw [csv_data]
    apply parse_toCsv
    · intro r hr
      rcases List.mem_cons.mp hr with h | h
      · subst h
        decide
      · obtain ⟨row, hrow, rfl⟩ := List.mem_map.mp h
        simp [csvCells]
    · intro r hr cell hcell
      rcases List.mem_cons.mp hr with h | h
      · subst h
        have hh : ∀ c ∈ headerCells, ',' ∉ c ∧ '\n' ∉ c := by decide
        exact hh cell hcell
      · obtain ⟨row, hrow, rfl⟩ := List.mem_map.mp h
        obtain ⟨b, hb, rfl⟩ := List.mem_map.mp hrow
        simp only [csvCells] at hcell
        rcases List.mem_cons.mp hcell with rfl | hm
        · exact clean_of_chars _ (fmtDate_clean b.date)
        rcases List.mem_cons.mp hm with rfl | hm
        · exact clean_of_chars _ (ratToDec_clean _)
        rcases List.mem_cons.mp hm with rfl | hm
        · exact clean_of_chars _ (ratToDec_clean _)
        rcases List.mem_cons.mp hm with rfl | hm
        · exact clean_of_chars _ (ratToDec_clean _)
        rcases List.mem_cons.mp hm with rfl | hm
        · exact clean_of_chars _ (ratToDec_clean _)
        rcases List.mem_cons.mp hm with rfl | hm
        · exact clean_of_chars _ (natDigits_clean _)
        · simp at hm
  · simp only [displayHist, csvHist, List.map_map]
    rfl

end Dashboard
